import Mathlib

/-!
Shallow embedding of the CPU simulator core from
`src/src/components/Computer.tsx` (the `CPU` class and its instruction set).

Modelling conventions:
- JS numbers that the core ever holds are nonnegative integers, so registers
  are modelled as `Nat` (unbounded, exactly like plain JS numbers here:
  nothing masks a register on arithmetic).
- `memory` is a `Uint8Array(memorySize)`: modelled as a `List Nat` of that
  length.  A JS typed-array store `memory[a] = v` truncates `v` to a byte
  (for the nonnegative integers that occur here, `v % 256`) and silently
  ignores an out-of-range index; `memWrite` reproduces both.  Reads
  `memory[a]` are modelled with `List.getD _ a 0`; an out-of-range read is
  JS `undefined`, which the theorems below avoid by keeping every read
  address in range (for `fetch`, an out-of-range read makes the executor
  take the same do-nothing branch as the default case, which `getD`'s 0 —
  the NOOP opcode — also takes).
- The object's nested `registers` record is flattened into the `CPU`
  structure; `logMessage` is a free-text diagnostic that no control flow
  reads (spec section 3: observability only) and is omitted.
-/

namespace EffectiveCpu

/-- Opcodes of the `InstructionSet` object in the source. -/
def NOOP : Nat := 0
def LOAD_A_VAL : Nat := 1
def LOAD_B_VAL : Nat := 2
def LOAD_A_MEM : Nat := 3
def LOAD_B_MEM : Nat := 4
def STORE_A : Nat := 5
def STORE_B : Nat := 6
def ADD : Nat := 7
def HALT : Nat := 8
def ENABLE_INTERRUPTS : Nat := 9
def IRET : Nat := 10
def JMP : Nat := 11
def PUSH_A : Nat := 12
def POP_A : Nat := 13
def PUSH_B : Nat := 14
def POP_B : Nat := 15

/-- Interrupt codes (`Interrupts` object): only TIMER = 0x01 is defined. -/
def TIMER : Nat := 1

/-- Vector table base (`CPU.INTERRUPT_VECTOR_TABLE_START`). -/
def INTERRUPT_VECTOR_TABLE_START : Nat := 0

/-- Memory address of the TIMER ISR vector entry
(`CPU.TIMER_ISR_ADDRESS_POINTER = INTERRUPT_VECTOR_TABLE_START + Interrupts.TIMER`). -/
def TIMER_ISR_ADDRESS_POINTER : Nat := INTERRUPT_VECTOR_TABLE_START + TIMER

/-- The CPU state: the `memory` Uint8Array, the fields of the nested
`registers` record (flattened), the `halted` flag and the `interruptQueue`
array.  The diagnostic `logMessage` string is omitted (never read back). -/
structure CPU where
  memory : List Nat
  A : Nat
  B : Nat
  IR : Nat
  MAR : Nat
  MDR : Nat
  PC : Nat
  SP : Nat
  IE : Nat
  halted : Bool
  interruptQueue : List Nat
deriving Repr, DecidableEq

/-- A JS `Uint8Array` store `m[a] = v`: truncate the value to a byte and
silently ignore an out-of-range index. -/
def memWrite (m : List Nat) (a v : Nat) : List Nat :=
  if a < m.length then m.set a (v % 256) else m

/-- A JS `m[a]` read, for the in-range addresses the theorems use. -/
def memRead (m : List Nat) (a : Nat) : Nat :=
  m.getD a 0

/-- The `CPU` constructor: zeroed `Uint8Array(memorySize)`, all registers 0
except `SP = memorySize - 1`, not halted, empty interrupt queue. -/
def CPU.new (memorySize : Nat) : CPU :=
  { memory := List.replicate memorySize 0
    A := 0, B := 0, IR := 0, MAR := 0, MDR := 0
    PC := 0, SP := memorySize - 1, IE := 0
    halted := false, interruptQueue := [] }

/-- The `program.forEach((value, index) => ...)` loop of `loadProgram`:
write the bytes at consecutive addresses from `base`, skipping any index
past capacity. -/
def storeImage (m : List Nat) (base : Nat) : List Nat → List Nat
  | [] => m
  | v :: rest => storeImage (memWrite m base v) (base + 1) rest

/-- `CPU.loadProgram(program, startAddress)`: bulk-write the image, then set
`PC = startAddress`. -/
def CPU.loadProgram (c : CPU) (program : List Nat) (startAddress : Nat) : CPU :=
  { c with memory := storeImage c.memory startAddress program
           PC := startAddress }

/-- `CPU.requestInterrupt(interrupt)`: append the code to the queue only if
it is not already present. -/
def CPU.requestInterrupt (c : CPU) (interrupt : Nat) : CPU :=
  if c.interruptQueue.contains interrupt then c
  else { c with interruptQueue := c.interruptQueue ++ [interrupt] }

/-- `CPU.pushToStack(value)`: write the value at `SP`, then decrement `SP`
only when `SP > 0`. -/
def CPU.pushToStack (c : CPU) (value : Nat) : CPU :=
  let c1 : CPU := { c with memory := memWrite c.memory c.SP value }
  if c1.SP > 0 then { c1 with SP := c1.SP - 1 } else c1

/-- `CPU.popFromStack()`: increment `SP` only when `SP < memory.length - 1`,
then return the byte at the new `SP` together with the mutated state. -/
def CPU.popFromStack (c : CPU) : CPU × Nat :=
  let c1 : CPU := if c.SP < c.memory.length - 1 then { c with SP := c.SP + 1 } else c
  (c1, memRead c1.memory c1.SP)

/-- `CPU.fetch()`: `MAR := PC`, `IR := memory[MAR]`, `PC := PC + 1`. -/
def CPU.fetch (c : CPU) : CPU :=
  { c with MAR := c.PC, IR := memRead c.memory c.PC, PC := c.PC + 1 }

/-- `CPU.handleInterrupt()`: shift the queue head; the falsy guard
`if (!interruptType) return` drops code 0 (and an empty shift) without
servicing; otherwise clear `IE`, push `PC`, and load `PC` from the vector
entry at `TIMER_ISR_ADDRESS_POINTER` — the source always uses the TIMER
pointer, whatever code was dequeued, and reads it after the push. -/
def CPU.handleInterrupt (c : CPU) : CPU :=
  match c.interruptQueue with
  | [] => c
  | interruptType :: rest =>
    let c1 : CPU := { c with interruptQueue := rest }
    if interruptType = 0 then c1
    else
      let c2 : CPU := { c1 with IE := 0 }
      let c3 : CPU := c2.pushToStack c2.PC
      let isrAddress : Nat := memRead c3.memory TIMER_ISR_ADDRESS_POINTER
      { c3 with PC := isrAddress }

/-- `CPU.decodeAndExecute()`: dispatch on `IR` (the source's local
`instruction`), mirroring the `switch` cases in order; the default case
changes nothing but the log. -/
def CPU.decodeAndExecute (c : CPU) : CPU :=
  if c.IR = LOAD_A_VAL then
    { c with A := memRead c.memory c.PC, PC := c.PC + 1 }
  else if c.IR = LOAD_B_VAL then
    { c with B := memRead c.memory c.PC, PC := c.PC + 1 }
  else if c.IR = LOAD_A_MEM then
    { c with A := memRead c.memory (memRead c.memory c.PC), PC := c.PC + 1 }
  else if c.IR = LOAD_B_MEM then
    { c with B := memRead c.memory (memRead c.memory c.PC), PC := c.PC + 1 }
  else if c.IR = STORE_A then
    { c with memory := memWrite c.memory (memRead c.memory c.PC) c.A
             PC := c.PC + 1 }
  else if c.IR = STORE_B then
    { c with memory := memWrite c.memory (memRead c.memory c.PC) c.B
             PC := c.PC + 1 }
  else if c.IR = ADD then
    { c with A := c.A + c.B }
  else if c.IR = JMP then
    { c with PC := memRead c.memory c.PC }
  else if c.IR = ENABLE_INTERRUPTS then
    { c with IE := 1 }
  else if c.IR = IRET then
    let p := c.popFromStack
    { p.1 with PC := p.2, IE := 1 }
  else if c.IR = PUSH_A then
    c.pushToStack c.A
  else if c.IR = POP_A then
    let p := c.popFromStack
    { p.1 with A := p.2 }
  else if c.IR = PUSH_B then
    c.pushToStack c.B
  else if c.IR = POP_B then
    let p := c.popFromStack
    { p.1 with B := p.2 }
  else if c.IR = HALT then
    { c with halted := true }
  else if c.IR = NOOP then
    c
  else
    c

/-- `CPU.tick()`: no-op when halted; service an interrupt when `IE = 1` and
the queue is non-empty; otherwise fetch then decode-and-execute. -/
def CPU.tick (c : CPU) : CPU :=
  if c.halted then c
  else if c.IE = 1 ∧ 0 < c.interruptQueue.length then c.handleInterrupt
  else c.fetch.decodeAndExecute

/-- Stack-pointer invariant of spec section 3: `SP ∈ [0, C-1]` for capacity
`C = memory.length` (the lower bound is automatic for `Nat`). -/
def SPInv (c : CPU) : Prop := c.SP < c.memory.length

/-- Interrupt-queue invariant of spec section 3: at most one pending entry
per interrupt code. -/
def QInv (c : CPU) : Prop := c.interruptQueue.Nodup

/-- Memory invariant: every cell holds a byte value in [0, 255]. -/
def MemInv (c : CPU) : Prop := ∀ x ∈ c.memory, x < 256

/-! Concrete machine states used by the witness and counterexample
theorems. -/

def haltedExample : CPU :=
  { memory := [8, 0, 0, 0], A := 3, B := 4, IR := 8, MAR := 0, MDR := 0
    PC := 1, SP := 3, IE := 1, halted := true, interruptQueue := [1] }

def addExample : CPU :=
  { memory := [7, 0, 0, 0], A := 200, B := 100, IR := 0, MAR := 0, MDR := 0
    PC := 0, SP := 3, IE := 0, halted := false, interruptQueue := [] }

def unknownExample : CPU :=
  { memory := [42, 0, 0, 0], A := 1, B := 2, IR := 0, MAR := 0, MDR := 0
    PC := 0, SP := 3, IE := 0, halted := false, interruptQueue := [] }

def jmpExample : CPU :=
  { memory := [11, 4, 0, 0, 0, 0, 0, 0], A := 0, B := 0, IR := 0, MAR := 0, MDR := 0
    PC := 0, SP := 7, IE := 0, halted := false, interruptQueue := [] }

def loadExample : CPU :=
  { memory := [1, 9, 0, 0, 0, 0, 0, 0], A := 0, B := 0, IR := 0, MAR := 0, MDR := 0
    PC := 0, SP := 7, IE := 0, halted := false, interruptQueue := [] }

def irqExample : CPU :=
  { memory := [0, 5, 6, 0, 0, 0, 0, 0], A := 0, B := 0, IR := 0, MAR := 0, MDR := 0
    PC := 3, SP := 7, IE := 1, halted := false, interruptQueue := [2] }

def irqZeroExample : CPU :=
  { memory := [0, 5, 6, 0, 0, 0, 0, 0], A := 0, B := 0, IR := 0, MAR := 0, MDR := 0
    PC := 3, SP := 7, IE := 1, halted := false, interruptQueue := [0, 2] }

def iretExample : CPU :=
  { memory := [10, 0, 0, 0, 0, 0, 9, 0], A := 3, B := 4, IR := 0, MAR := 0, MDR := 0
    PC := 0, SP := 5, IE := 0, halted := false, interruptQueue := [] }

def pushPopExample : CPU :=
  { memory := [0, 0, 0, 0, 0, 0, 0, 0], A := 0, B := 0, IR := 0, MAR := 0, MDR := 0
    PC := 0, SP := 7, IE := 0, halted := false, interruptQueue := [] }

def spExample : CPU :=
  { memory := [0, 0, 0, 0], A := 0, B := 0, IR := 0, MAR := 0, MDR := 0
    PC := 0, SP := 3, IE := 0, halted := false, interruptQueue := [] }

def dedupExample : CPU :=
  { memory := [0, 0, 0, 0], A := 0, B := 0, IR := 0, MAR := 0, MDR := 0
    PC := 0, SP := 3, IE := 0, halted := false, interruptQueue := [] }

def overflowExample : CPU :=
  { memory := [0, 0, 0, 0], A := 300, B := 0, IR := 0, MAR := 0, MDR := 0
    PC := 0, SP := 3, IE := 0, halted := false, interruptQueue := [] }

/-! Helper lemmas shared by the claim theorems. -/

theorem memWrite_length (m : List Nat) (a v : Nat) :
    (memWrite m a v).length = m.length := by
  unfold memWrite
  split <;> simp

theorem memRead_memWrite_self (m : List Nat) (a v : Nat) (h : a < m.length) :
    memRead (memWrite m a v) a = v % 256 := by
  unfold memRead memWrite
  rw [if_pos h, List.getD_eq_getElem?_getD, List.getElem?_set_self h]
  rfl

theorem storeImage_length (p : List Nat) :
    ∀ m b, (storeImage m b p).length = m.length := by
  induction p with
  | nil => intro m b; rfl
  | cons v rest ih =>
    intro m b
    rw [storeImage, ih, memWrite_length]

/-- Fetch changes only IR, MAR, and PC (by +1). -/
theorem fetch_spec (c : CPU) :
    c.fetch = { c with MAR := c.PC, IR := memRead c.memory c.PC, PC := c.PC + 1 } :=
  rfl

/-- Push characterized without the intermediate state. -/
theorem pushToStack_spec (c : CPU) (v : Nat) :
    c.pushToStack v =
      { c with memory := memWrite c.memory c.SP v
               SP := if 0 < c.SP then c.SP - 1 else c.SP } := by
  simp only [CPU.pushToStack]
  split_ifs <;> rfl

/-- Pop characterized without the intermediate state. -/
theorem popFromStack_spec (c : CPU) :
    c.popFromStack =
      (if c.SP < c.memory.length - 1 then { c with SP := c.SP + 1 } else c,
       memRead c.memory (if c.SP < c.memory.length - 1 then c.SP + 1 else c.SP)) := by
  simp only [CPU.popFromStack]
  split_ifs <;> rfl

/-! Branch equations for `decodeAndExecute`, one per opcode, so later case
analyses never have to split the 17-way dispatch symbolically. -/

theorem decode_NOOP (c : CPU) (h : c.IR = NOOP) :
    c.decodeAndExecute = c := by
  simp only [CPU.decodeAndExecute, h]
  norm_num [NOOP, LOAD_A_VAL, LOAD_B_VAL, LOAD_A_MEM, LOAD_B_MEM, STORE_A,
    STORE_B, ADD, HALT, ENABLE_INTERRUPTS, IRET, JMP, PUSH_A, POP_A, PUSH_B, POP_B]

theorem decode_LOAD_A_VAL (c : CPU) (h : c.IR = LOAD_A_VAL) :
    c.decodeAndExecute = { c with A := memRead c.memory c.PC, PC := c.PC + 1 } := by
  simp only [CPU.decodeAndExecute, h]
  norm_num [LOAD_A_VAL]

theorem decode_LOAD_B_VAL (c : CPU) (h : c.IR = LOAD_B_VAL) :
    c.decodeAndExecute = { c with B := memRead c.memory c.PC, PC := c.PC + 1 } := by
  simp only [CPU.decodeAndExecute, h]
  norm_num [LOAD_A_VAL, LOAD_B_VAL]

theorem decode_LOAD_A_MEM (c : CPU) (h : c.IR = LOAD_A_MEM) :
    c.decodeAndExecute =
      { c with A := memRead c.memory (memRead c.memory c.PC), PC := c.PC + 1 } := by
  simp only [CPU.decodeAndExecute, h]
  norm_num [LOAD_A_VAL, LOAD_B_VAL, LOAD_A_MEM]

theorem decode_LOAD_B_MEM (c : CPU) (h : c.IR = LOAD_B_MEM) :
    c.decodeAndExecute =
      { c with B := memRead c.memory (memRead c.memory c.PC), PC := c.PC + 1 } := by
  simp only [CPU.decodeAndExecute, h]
  norm_num [LOAD_A_VAL, LOAD_B_VAL, LOAD_A_MEM, LOAD_B_MEM]

theorem decode_STORE_A (c : CPU) (h : c.IR = STORE_A) :
    c.decodeAndExecute =
      { c with memory := memWrite c.memory (memRead c.memory c.PC) c.A
               PC := c.PC + 1 } := by
  simp only [CPU.decodeAndExecute, h]
  norm_num [LOAD_A_VAL, LOAD_B_VAL, LOAD_A_MEM, LOAD_B_MEM, STORE_A]

theorem decode_STORE_B (c : CPU) (h : c.IR = STORE_B) :
    c.decodeAndExecute =
      { c with memory := memWrite c.memory (memRead c.memory c.PC) c.B
               PC := c.PC + 1 } := by
  simp only [CPU.decodeAndExecute, h]
  norm_num [LOAD_A_VAL, LOAD_B_VAL, LOAD_A_MEM, LOAD_B_MEM, STORE_A, STORE_B]

theorem decode_ADD (c : CPU) (h : c.IR = ADD) :
    c.decodeAndExecute = { c with A := c.A + c.B } := by
  simp only [CPU.decodeAndExecute, h]
  norm_num [LOAD_A_VAL, LOAD_B_VAL, LOAD_A_MEM, LOAD_B_MEM, STORE_A, STORE_B, ADD]

theorem decode_JMP (c : CPU) (h : c.IR = JMP) :
    c.decodeAndExecute = { c with PC := memRead c.memory c.PC } := by
  simp only [CPU.decodeAndExecute, h]
  norm_num [LOAD_A_VAL, LOAD_B_VAL, LOAD_A_MEM, LOAD_B_MEM, STORE_A, STORE_B,
    ADD, JMP]

theorem decode_ENABLE_INTERRUPTS (c : CPU) (h : c.IR = ENABLE_INTERRUPTS) :
    c.decodeAndExecute = { c with IE := 1 } := by
  simp only [CPU.decodeAndExecute, h]
  norm_num [LOAD_A_VAL, LOAD_B_VAL, LOAD_A_MEM, LOAD_B_MEM, STORE_A, STORE_B,
    ADD, JMP, ENABLE_INTERRUPTS]

theorem decode_IRET (c : CPU) (h : c.IR = IRET) :
    c.decodeAndExecute =
      { c.popFromStack.1 with PC := c.popFromStack.2, IE := 1 } := by
  simp only [CPU.decodeAndExecute, h]
  norm_num [LOAD_A_VAL, LOAD_B_VAL, LOAD_A_MEM, LOAD_B_MEM, STORE_A, STORE_B,
    ADD, JMP, ENABLE_INTERRUPTS, IRET]

theorem decode_PUSH_A (c : CPU) (h : c.IR = PUSH_A) :
    c.decodeAndExecute = c.pushToStack c.A := by
  simp only [CPU.decodeAndExecute, h]
  norm_num [LOAD_A_VAL, LOAD_B_VAL, LOAD_A_MEM, LOAD_B_MEM, STORE_A, STORE_B,
    ADD, JMP, ENABLE_INTERRUPTS, IRET, PUSH_A]

theorem decode_POP_A (c : CPU) (h : c.IR = POP_A) :
    c.decodeAndExecute = { c.popFromStack.1 with A := c.popFromStack.2 } := by
  simp only [CPU.decodeAndExecute, h]
  norm_num [LOAD_A_VAL, LOAD_B_VAL, LOAD_A_MEM, LOAD_B_MEM, STORE_A, STORE_B,
    ADD, JMP, ENABLE_INTERRUPTS, IRET, PUSH_A, POP_A]

theorem decode_PUSH_B (c : CPU) (h : c.IR = PUSH_B) :
    c.decodeAndExecute = c.pushToStack c.B := by
  simp only [CPU.decodeAndExecute, h]
  norm_num [LOAD_A_VAL, LOAD_B_VAL, LOAD_A_MEM, LOAD_B_MEM, STORE_A, STORE_B,
    ADD, JMP, ENABLE_INTERRUPTS, IRET, PUSH_A, POP_A, PUSH_B]

theorem decode_POP_B (c : CPU) (h : c.IR = POP_B) :
    c.decodeAndExecute = { c.popFromStack.1 with B := c.popFromStack.2 } := by
  simp only [CPU.decodeAndExecute, h]
  norm_num [LOAD_A_VAL, LOAD_B_VAL, LOAD_A_MEM, LOAD_B_MEM, STORE_A, STORE_B,
    ADD, JMP, ENABLE_INTERRUPTS, IRET, PUSH_A, POP_A, PUSH_B, POP_B]

theorem decode_HALT (c : CPU) (h : c.IR = HALT) :
    c.decodeAndExecute = { c with halted := true } := by
  simp only [CPU.decodeAndExecute, h]
  norm_num [LOAD_A_VAL, LOAD_B_VAL, LOAD_A_MEM, LOAD_B_MEM, STORE_A, STORE_B,
    ADD, JMP, ENABLE_INTERRUPTS, IRET, PUSH_A, POP_A, PUSH_B, POP_B, HALT]

theorem decode_default (c : CPU) (h : 16 ≤ c.IR) :
    c.decodeAndExecute = c := by
  have h3 : ∀ k : Nat, k < 16 → c.IR ≠ k := by omega
  simp only [CPU.decodeAndExecute]
  norm_num [LOAD_A_VAL, LOAD_B_VAL, LOAD_A_MEM, LOAD_B_MEM, STORE_A, STORE_B,
    ADD, JMP, ENABLE_INTERRUPTS, IRET, PUSH_A, POP_A, PUSH_B, POP_B, HALT, NOOP,
    h3 1 (by norm_num), h3 2 (by norm_num), h3 3 (by norm_num), h3 4 (by norm_num),
    h3 5 (by norm_num), h3 6 (by norm_num), h3 7 (by norm_num), h3 8 (by norm_num),
    h3 9 (by norm_num), h3 10 (by norm_num), h3 11 (by norm_num), h3 12 (by norm_num),
    h3 13 (by norm_num), h3 14 (by norm_num), h3 15 (by norm_num), h3 0 (by norm_num)]

/-- Case analysis on the opcode in IR, phrased through the branch
equations. -/
theorem decode_pred (c : CPU) (P : CPU → Prop)
    (h0 : c.IR = NOOP → P c)
    (hd1 : c.IR = LOAD_A_VAL →
      P { c with A := memRead c.memory c.PC, PC := c.PC + 1 })
    (hd2 : c.IR = LOAD_B_VAL →
      P { c with B := memRead c.memory c.PC, PC := c.PC + 1 })
    (hd3 : c.IR = LOAD_A_MEM →
      P { c with A := memRead c.memory (memRead c.memory c.PC), PC := c.PC + 1 })
    (hd4 : c.IR = LOAD_B_MEM →
      P { c with B := memRead c.memory (memRead c.memory c.PC), PC := c.PC + 1 })
    (hd5 : c.IR = STORE_A →
      P { c with memory := memWrite c.memory (memRead c.memory c.PC) c.A
                 PC := c.PC + 1 })
    (hd6 : c.IR = STORE_B →
      P { c with memory := memWrite c.memory (memRead c.memory c.PC) c.B
                 PC := c.PC + 1 })
    (hd7 : c.IR = ADD → P { c with A := c.A + c.B })
    (hd8 : c.IR = HALT → P { c with halted := true })
    (hd9 : c.IR = ENABLE_INTERRUPTS → P { c with IE := 1 })
    (hd10 : c.IR = IRET →
      P { c.popFromStack.1 with PC := c.popFromStack.2, IE := 1 })
    (hd11 : c.IR = JMP → P { c with PC := memRead c.memory c.PC })
    (hd12 : c.IR = PUSH_A → P (c.pushToStack c.A))
    (hd13 : c.IR = POP_A → P { c.popFromStack.1 with A := c.popFromStack.2 })
    (hd14 : c.IR = PUSH_B → P (c.pushToStack c.B))
    (hd15 : c.IR = POP_B → P { c.popFromStack.1 with B := c.popFromStack.2 })
    (hdef : 16 ≤ c.IR → P c) :
    P c.decodeAndExecute := by
  have hc : c.IR = 0 ∨ c.IR = 1 ∨ c.IR = 2 ∨ c.IR = 3 ∨ c.IR = 4 ∨ c.IR = 5 ∨
      c.IR = 6 ∨ c.IR = 7 ∨ c.IR = 8 ∨ c.IR = 9 ∨ c.IR = 10 ∨ c.IR = 11 ∨
      c.IR = 12 ∨ c.IR = 13 ∨ c.IR = 14 ∨ c.IR = 15 ∨ 16 ≤ c.IR := by omega
  rcases hc with h | h | h | h | h | h | h | h | h | h | h | h | h | h | h | h | h
  · rw [decode_NOOP c h]; exact h0 h
  · rw [decode_LOAD_A_VAL c h]; exact hd1 h
  · rw [decode_LOAD_B_VAL c h]; exact hd2 h
  · rw [decode_LOAD_A_MEM c h]; exact hd3 h
  · rw [decode_LOAD_B_MEM c h]; exact hd4 h
  · rw [decode_STORE_A c h]; exact hd5 h
  · rw [decode_STORE_B c h]; exact hd6 h
  · rw [decode_ADD c h]; exact hd7 h
  · rw [decode_HALT c h]; exact hd8 h
  · rw [decode_ENABLE_INTERRUPTS c h]; exact hd9 h
  · rw [decode_IRET c h]; exact hd10 h
  · rw [decode_JMP c h]; exact hd11 h
  · rw [decode_PUSH_A c h]; exact hd12 h
  · rw [decode_POP_A c h]; exact hd13 h
  · rw [decode_PUSH_B c h]; exact hd14 h
  · rw [decode_POP_B c h]; exact hd15 h
  · rw [decode_default c h]; exact hdef h

/-- Clause C3: the halted state is terminal: with `halted = true`, `tick()`
leaves the whole machine state unchanged, and so does every iterate of
`tick()`. -/
theorem halted_is_terminal (c : CPU) (h : c.halted = true) :
    ∀ n : Nat, CPU.tick^[n] c = c := by
  intro n
  induction n with
  | zero => rfl
  | succ n ih =>
    rw [Function.iterate_succ_apply, CPU.tick, if_pos h, ih]

/-- Clause C3 witness: the terminality theorem applied to a concrete halted
machine and three ticks. -/
theorem halted_is_terminal_witness :
    haltedExample.halted = true ∧ CPU.tick^[3] haltedExample = haltedExample :=
  ⟨rfl, halted_is_terminal haltedExample rfl 3⟩

/-- Clause C5: executing ADD sets A to the exact sum A + B (no masking, the
sum may exceed 255) and leaves B, SP, IE, the memory, and PC beyond the
fetch's +1 advance unchanged. -/
theorem add_exact_sum (c : CPU) (h1 : c.halted = false)
    (h2 : ¬(c.IE = 1 ∧ 0 < c.interruptQueue.length))
    (hop : memRead c.memory c.PC = ADD) :
    c.tick.A = c.A + c.B ∧ c.tick.B = c.B ∧ c.tick.PC = c.PC + 1 ∧
    c.tick.SP = c.SP ∧ c.tick.IE = c.IE ∧ c.tick.memory = c.memory := by
  rw [CPU.tick, if_neg (by simp [h1]), if_neg h2, fetch_spec]
  simp only [CPU.decodeAndExecute, hop]
  norm_num [ADD, LOAD_A_VAL, LOAD_B_VAL, LOAD_A_MEM, LOAD_B_MEM, STORE_A, STORE_B]

/-- Clause C5 witness: ADD on A = 200, B = 100 yields A = 300 > 255. -/
theorem add_exact_sum_witness :
    addExample.halted = false ∧
    ¬(addExample.IE = 1 ∧ 0 < addExample.interruptQueue.length) ∧
    memRead addExample.memory addExample.PC = ADD ∧
    (addExample.tick.A = addExample.A + addExample.B ∧
     addExample.tick.B = addExample.B ∧
     addExample.tick.PC = addExample.PC + 1 ∧
     addExample.tick.SP = addExample.SP ∧
     addExample.tick.IE = addExample.IE ∧
     addExample.tick.memory = addExample.memory) :=
  ⟨rfl, by decide, by decide,
   add_exact_sum addExample rfl (by decide) (by decide)⟩

/-- Clause C8: a byte value that is none of the 16 defined opcodes (every
value ≥ 16) executes as the switch's default case: the tick changes nothing
beyond the fetch itself (IR gets the byte, MAR the old PC, PC advances by
exactly 1) and execution continues (`halted` stays false). -/
theorem unknown_opcode_no_change (c : CPU) (h1 : c.halted = false)
    (h2 : ¬(c.IE = 1 ∧ 0 < c.interruptQueue.length))
    (hop : 16 ≤ memRead c.memory c.PC) :
    c.tick = { c with IR := memRead c.memory c.PC, MAR := c.PC, PC := c.PC + 1 } := by
  rw [CPU.tick, if_neg (by simp [h1]), if_neg h2, fetch_spec]
  simp only [CPU.decodeAndExecute]
  have h3 : ∀ k : Nat, k < 16 → memRead c.memory c.PC ≠ k := by omega
  norm_num [LOAD_A_VAL, LOAD_B_VAL, LOAD_A_MEM, LOAD_B_MEM, STORE_A, STORE_B,
    ADD, JMP, ENABLE_INTERRUPTS, IRET, PUSH_A, POP_A, PUSH_B, POP_B, HALT, NOOP,
    h3 1 (by norm_num), h3 2 (by norm_num), h3 3 (by norm_num), h3 4 (by norm_num),
    h3 5 (by norm_num), h3 6 (by norm_num), h3 7 (by norm_num), h3 8 (by norm_num),
    h3 9 (by norm_num), h3 10 (by norm_num), h3 11 (by norm_num), h3 12 (by norm_num),
    h3 13 (by norm_num), h3 14 (by norm_num), h3 15 (by norm_num), h3 0 (by norm_num)]

/-- Clause C8 witness: byte 42 at PC = 0 only fetches. -/
theorem unknown_opcode_no_change_witness :
    16 ≤ memRead unknownExample.memory unknownExample.PC ∧
    unknownExample.tick =
      { unknownExample with IR := memRead unknownExample.memory unknownExample.PC,
                            MAR := unknownExample.PC,
                            PC := unknownExample.PC + 1 } :=
  ⟨by decide, unknown_opcode_no_change unknownExample rfl (by decide) (by decide)⟩

/-- Clause C2 counterexample: JMP at address 0 with operand 4 leaves PC = 4,
not 0 + 2, so the claim's "every two-byte opcode ... leaves PC = p + 2"
fails for JMP. -/
theorem jmp_pc_claim_false :
    memRead jmpExample.memory jmpExample.PC = JMP ∧
    jmpExample.tick.PC ≠ jmpExample.PC + 2 := by
  decide

/-- Clause C2 amended: the six non-JMP two-byte opcodes leave PC = p + 2
(fetch +1, operand read +1); JMP reads its operand at p + 1 and sets PC to
that operand instead of p + 2. -/
theorem two_byte_pc_advance (c : CPU) (h1 : c.halted = false)
    (h2 : ¬(c.IE = 1 ∧ 0 < c.interruptQueue.length)) :
    (memRead c.memory c.PC = LOAD_A_VAL ∨ memRead c.memory c.PC = LOAD_B_VAL ∨
     memRead c.memory c.PC = LOAD_A_MEM ∨ memRead c.memory c.PC = LOAD_B_MEM ∨
     memRead c.memory c.PC = STORE_A ∨ memRead c.memory c.PC = STORE_B →
      c.tick.PC = c.PC + 2) ∧
    (memRead c.memory c.PC = JMP →
      c.tick.PC = memRead c.memory (c.PC + 1)) := by
  rw [CPU.tick, if_neg (by simp [h1]), if_neg h2, fetch_spec]
  constructor
  · intro hop
    rcases hop with h | h | h | h | h | h <;>
      simp only [CPU.decodeAndExecute, h] <;>
      norm_num [LOAD_A_VAL, LOAD_B_VAL, LOAD_A_MEM, LOAD_B_MEM, STORE_A, STORE_B]
  · intro hop
    simp only [CPU.decodeAndExecute, hop]
    norm_num [JMP, LOAD_A_VAL, LOAD_B_VAL, LOAD_A_MEM, LOAD_B_MEM, STORE_A, STORE_B,
      ADD]

/-- Clause C2 witness: the amended theorem applied to LOAD_A_VAL at 0
(PC ends at 2) and to the JMP example (PC ends at the operand). -/
theorem two_byte_pc_advance_witness :
    (memRead loadExample.memory loadExample.PC = LOAD_A_VAL →
      loadExample.tick.PC = loadExample.PC + 2) ∧
    (memRead jmpExample.memory jmpExample.PC = JMP →
      jmpExample.tick.PC = memRead jmpExample.memory (jmpExample.PC + 1)) :=
  ⟨fun h => (two_byte_pc_advance loadExample rfl (by decide)).1 (Or.inl h),
   fun h => (two_byte_pc_advance jmpExample rfl (by decide)).2 h⟩

/-- Clause C1 counterexample: with IE = 1 and queue [2], the vector table
holding Memory[1] = 5 and Memory[2] = 6, the tick services the interrupt but
sets PC = 5 (the TIMER entry Memory[1]) and not Memory[0 + 2] = 6: the code
always reads `TIMER_ISR_ADDRESS_POINTER`, not the entry for the dequeued
code. -/
theorem interrupt_vector_claim_false :
    irqExample.IE = 1 ∧ irqExample.interruptQueue = [2] ∧
    irqExample.tick.PC ≠
      memRead irqExample.memory (INTERRUPT_VECTOR_TABLE_START + 2) := by
  decide

/-- Clause C1 amended: with IE = 1 and a non-empty queue, tick dequeues the
earliest-requested code (FIFO).  For a nonzero code it clears IE to 0,
pushes the current PC (write at SP, then decrement SP saturating at 0), and
sets PC to the TIMER vector entry Memory[1] as read after the push —
regardless of which code was dequeued.  For code 0 the falsy guard returns
right after the dequeue and nothing else changes. -/
theorem interrupt_service_spec (c : CPU) (h1 : c.halted = false)
    (hIE : c.IE = 1) (code : Nat) (rest : List Nat)
    (hq : c.interruptQueue = code :: rest) :
    c.tick.interruptQueue = rest ∧
    (code ≠ 0 →
      c.tick.IE = 0 ∧
      c.tick.memory = memWrite c.memory c.SP c.PC ∧
      c.tick.SP = (if 0 < c.SP then c.SP - 1 else c.SP) ∧
      c.tick.PC = memRead (memWrite c.memory c.SP c.PC) TIMER_ISR_ADDRESS_POINTER ∧
      c.tick.A = c.A ∧ c.tick.B = c.B ∧ c.tick.halted = false) ∧
    (code = 0 → c.tick = { c with interruptQueue := rest }) := by
  rw [CPU.tick, if_neg (by simp [h1]), if_pos (by simp [hIE, hq])]
  simp only [CPU.handleInterrupt, hq]
  rcases Decidable.em (code = 0) with h0 | h0
  · simp [h0]
  · simp [if_neg h0, pushToStack_spec, h0, h1]

/-- Clause C1 witness: the amended theorem applied to the queue [2] example
(nonzero code: full service through Memory[1]) and to a queue headed by
code 0 (dequeue only). -/
theorem interrupt_service_spec_witness :
    (irqExample.tick.interruptQueue = [] ∧
     irqExample.tick.IE = 0 ∧
     irqExample.tick.PC =
       memRead (memWrite irqExample.memory irqExample.SP irqExample.PC)
         TIMER_ISR_ADDRESS_POINTER) ∧
    irqZeroExample.tick = { irqZeroExample with interruptQueue := [2] } := by
  have h2 := interrupt_service_spec irqExample rfl rfl 2 [] rfl
  have h0 := interrupt_service_spec irqZeroExample rfl rfl 0 [2] rfl
  exact ⟨⟨h2.1, (h2.2.1 (by decide)).1, (h2.2.1 (by decide)).2.2.2.1⟩,
         h0.2.2 rfl⟩

/-- Clause C7: IRET pops the stack into PC (SP increments saturating at
capacity - 1, then PC is read at the new SP), sets IE to 1, and restores
nothing else: A, B, and the whole memory are unchanged. -/
theorem iret_spec (c : CPU) (h1 : c.halted = false)
    (h2 : ¬(c.IE = 1 ∧ 0 < c.interruptQueue.length))
    (hop : memRead c.memory c.PC = IRET) :
    c.tick.SP = (if c.SP < c.memory.length - 1 then c.SP + 1 else c.SP) ∧
    c.tick.PC =
      memRead c.memory (if c.SP < c.memory.length - 1 then c.SP + 1 else c.SP) ∧
    c.tick.IE = 1 ∧ c.tick.A = c.A ∧ c.tick.B = c.B ∧
    c.tick.memory = c.memory := by
  rw [CPU.tick, if_neg (by simp [h1]), if_neg h2, fetch_spec]
  simp only [CPU.decodeAndExecute, popFromStack_spec]
  norm_num [hop, IRET, LOAD_A_VAL, LOAD_B_VAL, LOAD_A_MEM, LOAD_B_MEM,
    STORE_A, STORE_B, ADD, JMP, ENABLE_INTERRUPTS]
  split_ifs <;> simp

/-- Clause C7 witness: IRET with SP = 5 and Memory[6] = 9 ends with SP = 6,
PC = 9, IE = 1, A, B, and memory untouched. -/
theorem iret_spec_witness :
    iretExample.tick.SP =
      (if iretExample.SP < iretExample.memory.length - 1
       then iretExample.SP + 1 else iretExample.SP) ∧
    iretExample.tick.PC =
      memRead iretExample.memory
        (if iretExample.SP < iretExample.memory.length - 1
         then iretExample.SP + 1 else iretExample.SP) ∧
    iretExample.tick.IE = 1 ∧ iretExample.tick.A = iretExample.A ∧
    iretExample.tick.B = iretExample.B ∧
    iretExample.tick.memory = iretExample.memory :=
  iret_spec iretExample rfl (by decide) (by decide)

/-- Clause C6: with SP in range and SP > 0 (non-saturating) and a byte
value v, push(v) then pop() returns v and restores SP. -/
theorem push_pop_roundtrip (c : CPU) (v : Nat) (hv : v < 256)
    (h0 : 0 < c.SP) (hlen : c.SP < c.memory.length) :
    ((c.pushToStack v).popFromStack).2 = v ∧
    ((c.pushToStack v).popFromStack).1.SP = c.SP := by
  rw [pushToStack_spec, popFromStack_spec]
  simp only [if_pos h0, memWrite_length]
  have hlt : c.SP - 1 < c.memory.length - 1 := by omega
  have hsp : c.SP - 1 + 1 = c.SP := by omega
  simp only [if_pos hlt, hsp]
  refine ⟨?_, by trivial⟩
  rw [memRead_memWrite_self _ _ _ hlen, Nat.mod_eq_of_lt hv]

/-- Clause C6 witness: pushing 99 with SP = 7 and popping returns 99 and
restores SP = 7. -/
theorem push_pop_roundtrip_witness :
    ((pushPopExample.pushToStack 99).popFromStack).2 = 99 ∧
    ((pushPopExample.pushToStack 99).popFromStack).1.SP = pushPopExample.SP :=
  push_pop_roundtrip pushPopExample 99 (by decide) (by decide) (by decide)

/-! Preservation lemmas for the stack-pointer invariant. -/

theorem pushToStack_SPInv (c : CPU) (v : Nat) (h : SPInv c) :
    SPInv (c.pushToStack v) := by
  rw [pushToStack_spec]
  unfold SPInv at *
  simp only [memWrite_length]
  split_ifs <;> omega

theorem popFromStack_SPInv (c : CPU) (h : SPInv c) :
    SPInv c.popFromStack.1 := by
  rw [popFromStack_spec]
  unfold SPInv at *
  split_ifs <;> simp <;> omega

theorem handleInterrupt_SPInv (c : CPU) (h : SPInv c) :
    SPInv c.handleInterrupt := by
  rw [CPU.handleInterrupt]
  split
  · exact h
  · split_ifs
    · exact h
    · exact pushToStack_SPInv _ _ h

theorem decodeAndExecute_SPInv (c : CPU) (h : SPInv c) :
    SPInv c.decodeAndExecute := by
  refine decode_pred c SPInv ?_ ?_ ?_ ?_ ?_ ?_ ?_ ?_ ?_ ?_ ?_ ?_ ?_ ?_ ?_ ?_ ?_ <;>
    intro _
  · exact h
  · exact h
  · exact h
  · exact h
  · exact h
  · simpa [SPInv, memWrite_length] using h
  · simpa [SPInv, memWrite_length] using h
  · exact h
  · exact h
  · exact h
  · exact popFromStack_SPInv _ h
  · exact h
  · exact pushToStack_SPInv _ _ h
  · exact popFromStack_SPInv _ h
  · exact pushToStack_SPInv _ _ h
  · exact popFromStack_SPInv _ h
  · exact h

theorem tick_SPInv (c : CPU) (h : SPInv c) : SPInv c.tick := by
  rw [CPU.tick]
  split_ifs
  · exact h
  · exact handleInterrupt_SPInv _ h
  · exact decodeAndExecute_SPInv _ h

/-- Clause C4: SP stays in [0, capacity - 1]: it does at construction
(SP = C - 1), and every public operation — loadProgram, requestInterrupt,
tick — and the push/pop primitives themselves preserve it, because push
decrements only when SP > 0 and pop increments only when
SP < capacity - 1. -/
theorem sp_invariant (C : Nat) (hC : 0 < C) (c : CPU) (h : SPInv c)
    (prog : List Nat) (start code v : Nat) :
    SPInv (CPU.new C) ∧ SPInv (c.loadProgram prog start) ∧
    SPInv (c.requestInterrupt code) ∧ SPInv c.tick ∧
    SPInv (c.pushToStack v) ∧ SPInv c.popFromStack.1 := by
  refine ⟨?_, ?_, ?_, tick_SPInv c h, pushToStack_SPInv c v h, popFromStack_SPInv c h⟩
  · unfold SPInv CPU.new
    simp
    omega
  · unfold SPInv CPU.loadProgram at *
    simpa [storeImage_length] using h
  · unfold SPInv CPU.requestInterrupt at *
    split_ifs <;> simpa using h

/-- Clause C4 witness: the invariant theorem applied to a fresh CPU of
capacity 4 and a concrete in-range state. -/
theorem sp_invariant_witness :
    SPInv (CPU.new 4) ∧ SPInv (spExample.loadProgram [1, 2] 0) ∧
    SPInv (spExample.requestInterrupt 1) ∧ SPInv spExample.tick ∧
    SPInv (spExample.pushToStack 5) ∧ SPInv spExample.popFromStack.1 :=
  sp_invariant 4 (by decide) spExample (by unfold SPInv; decide) [1, 2] 0 1 5

/-! Preservation lemmas for the interrupt-queue invariant. -/

theorem pushToStack_queue (c : CPU) (v : Nat) :
    (c.pushToStack v).interruptQueue = c.interruptQueue := by
  rw [pushToStack_spec]

theorem popFromStack_queue (c : CPU) :
    c.popFromStack.1.interruptQueue = c.interruptQueue := by
  rw [popFromStack_spec]
  split_ifs <;> rfl

theorem decodeAndExecute_queue (c : CPU) :
    c.decodeAndExecute.interruptQueue = c.interruptQueue := by
  refine decode_pred c (fun s => s.interruptQueue = c.interruptQueue)
    ?_ ?_ ?_ ?_ ?_ ?_ ?_ ?_ ?_ ?_ ?_ ?_ ?_ ?_ ?_ ?_ ?_ <;> intro _
  · rfl
  · rfl
  · rfl
  · rfl
  · rfl
  · rfl
  · rfl
  · rfl
  · rfl
  · rfl
  · exact popFromStack_queue c
  · rfl
  · exact pushToStack_queue c c.A
  · exact popFromStack_queue c
  · exact pushToStack_queue c c.B
  · exact popFromStack_queue c
  · rfl

theorem requestInterrupt_QInv (c : CPU) (code : Nat) (h : QInv c) :
    QInv (c.requestInterrupt code) := by
  rw [CPU.requestInterrupt]
  split_ifs with hc
  · exact h
  · have hm : code ∉ c.interruptQueue := by simpa using hc
    unfold QInv at *
    simp [List.nodup_append, h, hm]

theorem handleInterrupt_QInv (c : CPU) (h : QInv c) :
    QInv c.handleInterrupt := by
  rw [CPU.handleInterrupt]
  split
  · exact h
  · rename_i t rest hq
    have hrest : rest.Nodup := by
      have := h
      unfold QInv at this
      rw [hq] at this
      exact this.of_cons
    split_ifs
    · exact hrest
    · unfold QInv
      rw [pushToStack_queue]
      exact hrest

theorem tick_QInv (c : CPU) (h : QInv c) : QInv c.tick := by
  rw [CPU.tick]
  split_ifs
  · exact h
  · exact handleInterrupt_QInv _ h
  · unfold QInv
    rw [decodeAndExecute_queue]
    exact h

/-- Clause C9: requesting an already-queued code is a no-op (so two requests
before service queue exactly one entry), and the at-most-one-entry-per-code
invariant is preserved by requestInterrupt, loadProgram, and tick. -/
theorem interrupt_request_dedup (c : CPU) (code : Nat) (h : QInv c)
    (prog : List Nat) (start : Nat) :
    (code ∈ c.interruptQueue → c.requestInterrupt code = c) ∧
    (c.requestInterrupt code).requestInterrupt code = c.requestInterrupt code ∧
    (code ∉ c.interruptQueue →
      ((c.requestInterrupt code).requestInterrupt code).interruptQueue.count code
        = 1) ∧
    QInv (c.requestInterrupt code) ∧ QInv (c.loadProgram prog start) ∧
    QInv c.tick := by
  have hnoop : ∀ d : CPU, code ∈ d.interruptQueue → d.requestInterrupt code = d := by
    intro d hd
    rw [CPU.requestInterrupt, if_pos (List.elem_eq_true_of_mem hd)]
  have hmem : code ∈ (c.requestInterrupt code).interruptQueue := by
    rw [CPU.requestInterrupt]
    split_ifs with hc
    · simpa using hc
    · simp
  refine ⟨hnoop c, hnoop _ hmem, ?_, requestInterrupt_QInv c code h, h, tick_QInv c h⟩
  intro hm
  rw [hnoop _ hmem, CPU.requestInterrupt,
    if_neg (by simpa using hm)]
  simp [List.count_append, List.count_eq_zero.mpr hm]

/-- Clause C9 witness: two TIMER requests on an empty queue leave exactly
one entry. -/
theorem interrupt_request_dedup_witness :
    ((dedupExample.requestInterrupt 1).requestInterrupt 1
      = dedupExample.requestInterrupt 1) ∧
    ((dedupExample.requestInterrupt 1).requestInterrupt 1).interruptQueue.count 1
      = 1 :=
  ⟨(interrupt_request_dedup dedupExample 1 (by unfold QInv; decide) [] 0).2.1,
   (interrupt_request_dedup dedupExample 1 (by unfold QInv; decide) [] 0).2.2.1
     (by decide)⟩

/-! Preservation lemmas for the all-cells-are-bytes invariant. -/

theorem memWrite_bytes (m : List Nat) (a v : Nat) (h : ∀ x ∈ m, x < 256) :
    ∀ x ∈ memWrite m a v, x < 256 := by
  unfold memWrite
  split
  · intro x hx
    rcases List.mem_or_eq_of_mem_set hx with hx1 | hx1
    · exact h x hx1
    · rw [hx1]
      exact Nat.mod_lt _ (by norm_num)
  · exact h

theorem storeImage_bytes (p : List Nat) :
    ∀ m b, (∀ x ∈ m, x < 256) → ∀ x ∈ storeImage m b p, x < 256 := by
  induction p with
  | nil => intro m b h; exact h
  | cons v rest ih =>
    intro m b h
    rw [storeImage]
    exact ih _ _ (memWrite_bytes m b v h)

theorem pushToStack_MemInv (c : CPU) (v : Nat) (h : MemInv c) :
    MemInv (c.pushToStack v) := by
  rw [pushToStack_spec]
  unfold MemInv at *
  exact memWrite_bytes _ _ _ h

theorem popFromStack_MemInv (c : CPU) (h : MemInv c) :
    MemInv c.popFromStack.1 := by
  rw [popFromStack_spec]
  split_ifs <;> exact h

theorem handleInterrupt_MemInv (c : CPU) (h : MemInv c) :
    MemInv c.handleInterrupt := by
  rw [CPU.handleInterrupt]
  split
  · exact h
  · split_ifs
    · exact h
    · exact pushToStack_MemInv _ _ h

theorem decodeAndExecute_MemInv (c : CPU) (h : MemInv c) :
    MemInv c.decodeAndExecute := by
  refine decode_pred c MemInv ?_ ?_ ?_ ?_ ?_ ?_ ?_ ?_ ?_ ?_ ?_ ?_ ?_ ?_ ?_ ?_ ?_ <;>
    intro _
  · exact h
  · exact h
  · exact h
  · exact h
  · exact h
  · exact memWrite_bytes _ _ _ h
  · exact memWrite_bytes _ _ _ h
  · exact h
  · exact h
  · exact h
  · exact popFromStack_MemInv _ h
  · exact h
  · exact pushToStack_MemInv _ _ h
  · exact popFromStack_MemInv _ h
  · exact pushToStack_MemInv _ _ h
  · exact popFromStack_MemInv _ h
  · exact h

theorem tick_MemInv (c : CPU) (h : MemInv c) : MemInv c.tick := by
  rw [CPU.tick]
  split_ifs
  · exact h
  · exact handleInterrupt_MemInv _ h
  · exact decodeAndExecute_MemInv _ h

/-- Clause C10: every memory cell always holds a value in [0, 255]: the
invariant holds at construction and is preserved by loadProgram,
requestInterrupt, and tick (hence by every write the executor performs),
because each write stores its value reduced modulo 256 — so pushing a
register holding v ≥ 256 stores v % 256, which differs from v. -/
theorem memory_always_bytes (cap : Nat) (c : CPU) (h : MemInv c)
    (prog : List Nat) (start code v : Nat) :
    MemInv (CPU.new cap) ∧ MemInv (c.loadProgram prog start) ∧
    MemInv (c.requestInterrupt code) ∧ MemInv c.tick ∧
    (c.SP < c.memory.length →
      memRead (c.pushToStack v).memory c.SP = v % 256) := by
  refine ⟨?_, ?_, ?_, tick_MemInv c h, ?_⟩
  · intro x hx
    rw [List.eq_of_mem_replicate hx]
    norm_num
  · exact storeImage_bytes prog c.memory start h
  · rw [CPU.requestInterrupt]
    split_ifs <;> exact h
  · intro hsp
    rw [pushToStack_spec]
    exact memRead_memWrite_self _ _ _ hsp

/-- Clause C10 witness: pushing the register value 300 stores
300 % 256 = 44, and the invariants hold on a concrete state. -/
theorem memory_always_bytes_witness :
    MemInv (CPU.new 4) ∧ MemInv (overflowExample.loadProgram [7, 300] 0) ∧
    MemInv (overflowExample.requestInterrupt 1) ∧ MemInv overflowExample.tick ∧
    (overflowExample.SP < overflowExample.memory.length →
      memRead (overflowExample.pushToStack 300).memory overflowExample.SP
        = 300 % 256) :=
  memory_always_bytes 4 overflowExample (by unfold MemInv; decide) [7, 300] 0 1 300

end EffectiveCpu
